import Mathlib

/-!
Shallow embedding of the daily_journal client-side synchronization engine:
the entry collection store (`useTodayEntry`), the day-view draft controller,
dirty tracking and save handlers (`JournalDayView`), the per-block debounce
scheduler (`EntryBlock`), the session-refresh coordinator and retry logic of
the API client, and the metrics completion chainer.  Each definition is
translated from the corresponding source function; theorems settle the frozen
claims about them.
-/

namespace DailyJournal

/-- JS whitespace characters recognised by `String.prototype.trim` (the ones
that occur in this code base's content strings). -/
def isJsWhitespace (c : Char) : Bool :=
  c = ' ' || c = '\t' || c = '\n' || c = '\r'

/-- `String.prototype.trim` on the underlying character list: drop whitespace
from both ends. -/
def trimChars (l : List Char) : List Char :=
  ((l.dropWhile isJsWhitespace).reverse.dropWhile isJsWhitespace).reverse

/-- `content.trim()` as used throughout the client. -/
def jsTrim (s : String) : String :=
  ⟨trimChars s.data⟩

/-- A journal entry as held in the Entry Collection Store
(`src/frontend/src/types/journal.ts`): server-assigned `id`, markdown
`content`, and the user-editable `writtenAt` timestamp (modelled as epoch
milliseconds, the value `new Date(e.writtenAt).getTime()` sorts by). -/
structure JournalEntry where
  id : String
  content : String
  writtenAt : Nat
deriving DecidableEq, Repr

namespace UseTodayEntry

/-- Optimistic collection mutation performed by `createEntry` in
`useTodayEntry.ts`: `setEntries(prev => prev.some(e => e.id === saved.id) ?
prev : [...prev, saved])`. -/
def createEntryApply (saved : JournalEntry) (prev : List JournalEntry) :
    List JournalEntry :=
  if prev.any (fun e => e.id == saved.id) then prev else prev ++ [saved]

/-- Optimistic collection mutation performed by `updateEntry` in
`useTodayEntry.ts`: `setEntries(prev => prev.map(e => e.id === id ? updated :
e))` where `updated` is the entry returned by the gateway. -/
def updateEntryApply (id : String) (updated : JournalEntry)
    (prev : List JournalEntry) : List JournalEntry :=
  prev.map (fun e => if e.id == id then updated else e)

/-- Optimistic collection mutation performed by `deleteEntry` in
`useTodayEntry.ts`: `setEntries(prev => prev.filter(e => e.id !== id))`. -/
def deleteEntryApply (id : String) (prev : List JournalEntry) :
    List JournalEntry :=
  prev.filter (fun e => e.id != id)

/-- One optimistic mutation of the entry collection, as issued by the
`useTodayEntry` hook after a successful gateway call. -/
inductive EntryOp where
  | create (saved : JournalEntry)
  | update (id : String) (updated : JournalEntry)
  | delete (id : String)
deriving DecidableEq, Repr

/-- Apply one optimistic mutation. -/
def applyOp (op : EntryOp) (l : List JournalEntry) : List JournalEntry :=
  match op with
  | .create saved => createEntryApply saved l
  | .update id updated => updateEntryApply id updated l
  | .delete id => deleteEntryApply id l

/-- Apply a sequence of optimistic mutations, oldest first. -/
def applyOps (ops : List EntryOp) (l : List JournalEntry) : List JournalEntry :=
  ops.foldl (fun acc op => applyOp op acc) l

/-- The gateway contract `updateEntry(id, ...) -> Entry` returns the entry
with the requested id; an update op is well formed when its replacement
carries the id it targets. -/
def opWellFormed : EntryOp → Prop
  | .update id updated => updated.id = id
  | _ => True

instance : DecidablePred opWellFormed := by
  intro op
  cases op <;> simp only [opWellFormed] <;> infer_instance

/-- The ids currently present in the collection. -/
def entryIds (l : List JournalEntry) : List String :=
  l.map (fun e => e.id)

end UseTodayEntry

namespace EntryBlock

/-- The debounce scheduler state of one `EntryBlock` editable unit:
`saveTimeoutRef` (with the content captured by the pending timeout closure)
together with the log of `onSave` calls the block has issued, recorded as
`(content, isManualSave)` pairs, oldest first. -/
structure SchedState where
  timer : Option String
  saves : List (String × Bool)
deriving DecidableEq, Repr

/-- The events that drive one block's scheduler: an edit (`handleChange`),
a manual save trigger (`handleSaveNow`, cmd-enter or timestamp confirm), and
the firing of an armed debounce timeout. -/
inductive SchedEvent where
  | change (content : String)
  | saveNow (content : String)
  | fire
deriving DecidableEq, Repr

/-- Whether the event is a user edit. -/
def SchedEvent.isEdit : SchedEvent → Bool
  | .change _ => true
  | _ => false

/-- One step of the `EntryBlock` scheduler.
`change c` is `handleChange`: it always clears any pending timeout and re-arms
it with the new content only when `c.trim()` is nonempty.  `saveNow c` is
`handleSaveNow`: it clears any pending timeout and issues `onSave(c, true)`
immediately.  `fire` is the platform running an armed timeout: it issues
`onSave(content, false)` with the content captured when the timer was armed. -/
def schedStep (s : SchedState) : SchedEvent → SchedState
  | .change c =>
      { timer := if jsTrim c != "" then some c else none, saves := s.saves }
  | .saveNow c => { timer := none, saves := s.saves ++ [(c, true)] }
  | .fire =>
      match s.timer with
      | some c => { timer := none, saves := s.saves ++ [(c, false)] }
      | none => s

/-- Run a sequence of scheduler events. -/
def schedRun (s : SchedState) (evs : List SchedEvent) : SchedState :=
  evs.foldl schedStep s

/-- The debounce-fired (non-manual) saves in an `onSave` log. -/
def autoSaves (saves : List (String × Bool)) : List (String × Bool) :=
  saves.filter (fun p => !p.2)

end EntryBlock

/-- A call issued to the persistence gateway (`journalApi`) by the day view's
save handlers.  `update` carries the `writtenAt` argument that
`journalApi.updateEntry(id, content, writtenAt?)` receives (absent = the
PATCH payload has no `written_at` field). -/
inductive GatewayCall where
  | create (content : String)
  | update (id : String) (content : String) (writtenAt : Option Nat)
  | delete (id : String)
  | refreshList
deriving DecidableEq, Repr

namespace JournalDayView

open UseTodayEntry

/-- The `JournalDayView` state relevant to the synchronization engine:
the entry collection (`entries` from `useTodayEntry`), the per-entry local
contents, the dirty set `editedEntryIds`, the draft record
(`draftEntryId`, `draftContent`, `pendingDraftEntryIdRef`), the
`isSavingDraftRef` in-flight guard, and the `loading` / `hasInitialized`
flags read by `hasUnsavedChanges`. -/
structure DayViewState where
  entries : List JournalEntry
  entryContents : List (String × String)
  editedEntryIds : Finset String
  draftEntryId : Option String
  draftContent : String
  pendingDraftEntryId : Option String
  isSavingDraft : Bool
  loading : Bool
  hasInitialized : Bool

/-- Store `content` under `id` in the local contents record
(`setEntryContents(prev => ({...prev, [id]: content}))`). -/
def setContent (id content : String) (m : List (String × String)) :
    List (String × String) :=
  (id, content) :: m.filter (fun p => p.1 != id)

/-- The edited-set update of `handleEntryChange`: mark the entry edited only
when its trimmed content differs from the last-known server content; when it
matches again, drop it from the edited set; with no server entry, mark it
edited. -/
def nextEditedEntryIds (s : DayViewState) (id content : String) :
    Finset String :=
  match s.entries.find? (fun e => e.id == id) with
  | some serverEntry =>
      if jsTrim content != jsTrim serverEntry.content then
        insert id s.editedEntryIds
      else
        s.editedEntryIds.erase id
  | none => insert id s.editedEntryIds

/-- `handleEntryChange(id, content)`: record the new local content and apply
the dirty-tracking update. -/
def handleEntryChange (s : DayViewState) (id content : String) : DayViewState :=
  { s with
    entryContents := setContent id content s.entryContents,
    editedEntryIds := nextEditedEntryIds s id content }

/-- `handleEntrySave(id, content, _isManualSave, writtenAt)` on the success
path: a no-op unless the entry is in the edited set or a `writtenAt` was
passed; trimmed-empty content issues `deleteEntry(id)` followed by
`refresh()`; otherwise `updateEntry(id, trimmed, writtenAt)` is issued
through the `useTodayEntry` hook, whose `updateEntry(id, content)` takes no
`writtenAt` parameter, so the gateway call carries none.  `updResp` is the
entry the gateway returns for the update.  The second component is the list
of gateway calls issued. -/
def handleEntrySave (s : DayViewState) (id content : String)
    (writtenAt : Option Nat) (updResp : JournalEntry) :
    DayViewState × List GatewayCall :=
  let trimmed := jsTrim content
  let isEdited := id ∈ s.editedEntryIds ∨ writtenAt ≠ none
  if ¬isEdited then (s, [])
  else if trimmed = "" then
    ({ s with entries := deleteEntryApply id s.entries },
      [.delete id, .refreshList])
  else
    ({ s with
        entries := updateEntryApply id updResp s.entries,
        editedEntryIds := s.editedEntryIds.erase id },
      [.update id trimmed none])

/-- `handleDraftSave(content, _isManualSave, writtenAt)`.  A no-op when the
trimmed content is empty or a draft save is already in flight.  With no
`draftEntryId` it issues `createEntry(trimmed)`; `createResult` is the hook's
outcome: `.error ()` when `journalApi.createEntry` threw, `.ok none` when the
hook's own `isSavingRef` guard returned early with no gateway call, and
`.ok (some saved)` on success, in which case the pending draft id and
`draftEntryId` are set to `saved.id`, `draftContent` to
`saved.content || contentToSave`, and a provided `writtenAt` triggers an
immediate follow-up update through the hook (which drops `writtenAt`).
With a `draftEntryId` it updates that entry.  On create failure the pending
draft id is cleared; the in-flight flag is reset in all cases. -/
def handleDraftSave (s : DayViewState) (content : String)
    (writtenAt : Option Nat)
    (createResult : Except Unit (Option JournalEntry))
    (updResp : JournalEntry) : DayViewState × List GatewayCall :=
  let trimmed := jsTrim content
  if trimmed = "" ∨ s.isSavingDraft then (s, [])
  else
    match s.draftEntryId with
    | none =>
        match createResult with
        | .error _ =>
            ({ s with pendingDraftEntryId := none, isSavingDraft := false },
              [.create trimmed])
        | .ok none => ({ s with isSavingDraft := false }, [])
        | .ok (some saved) =>
            let s1 := { s with
              entries := createEntryApply saved s.entries,
              pendingDraftEntryId := some saved.id,
              draftEntryId := some saved.id,
              draftContent := if saved.content ≠ "" then saved.content
                              else trimmed,
              isSavingDraft := false }
            match writtenAt with
            | some _ =>
                ({ s1 with
                    entries := updateEntryApply saved.id updResp s1.entries },
                  [.create trimmed, .update saved.id trimmed none])
            | none => (s1, [.create trimmed])
    | some did =>
        ({ s with
            entries := updateEntryApply did updResp s.entries,
            draftContent := trimmed,
            isSavingDraft := false },
          [.update did trimmed none])

/-- The delayed `setTimeout` callback in `handleDraftSave`: clear the pending
draft id marker only if it still equals the id that was saved. -/
def clearPendingDraftId (s : DayViewState) (savedId : String) : DayViewState :=
  if s.pendingDraftEntryId = some savedId then
    { s with pendingDraftEntryId := none }
  else s

/-- The effect on `[entries, draftEntryId, ...]` (JournalDayView lines
77-102): rebuild the local contents from the collection, clear the edited
set, and reconcile the draft: when the draft's id is found in the collection
adopt the server content, when it is missing and no draft save is in flight
reset the draft record. -/
def syncWithEntries (s : DayViewState) : DayViewState :=
  let s1 := { s with
    entryContents := s.entries.map (fun e : JournalEntry => (e.id, e.content)),
    editedEntryIds := (∅ : Finset String) }
  match s1.draftEntryId with
  | some did =>
      match s1.entries.find? (fun e => e.id == did) with
      | some matching => { s1 with draftContent := matching.content }
      | none =>
          if ¬s1.isSavingDraft then
            { s1 with draftEntryId := none, draftContent := "" }
          else s1
  | none => s1

/-- `draftEntryId || pendingDraftEntryIdRef.current`: the committed draft id
when present, else the pending marker. -/
def effectiveDraftId (s : DayViewState) : Option String :=
  match s.draftEntryId with
  | some i => some i
  | none => s.pendingDraftEntryId

/-- The duplicate-suppression filter of `otherEntries`: an entry is kept
unless its id equals `draftEntryId || pendingDraftEntryIdRef.current`, or, as
a fallback during the create window (`!draftEntryId && isSavingDraftRef`),
its trimmed content equals the nonempty trimmed draft content. -/
def keepInOtherEntries (s : DayViewState) (e : JournalEntry) : Bool :=
  if some e.id = effectiveDraftId s then false
  else if s.draftEntryId = none ∧ s.isSavingDraft ∧ jsTrim s.draftContent ≠ ""
      ∧ jsTrim e.content = jsTrim s.draftContent then false
  else true

/-- `otherEntries`: the non-draft rows rendered by the day view: the filtered
collection sorted ascending by `writtenAt`. -/
def otherEntries (s : DayViewState) : List JournalEntry :=
  List.insertionSort (fun a b => a.writtenAt ≤ b.writtenAt)
    (s.entries.filter (keepInOtherEntries s))

/-- The draft-divergence part of `hasUnsavedChanges`: with a committed draft
compare trimmed draft content against the server content of the matching
entry (clean when no match is found); with no committed draft the draft is
dirty exactly when it has nonempty trimmed content. -/
def draftDirty (s : DayViewState) : Bool :=
  match s.draftEntryId with
  | some did =>
      match s.entries.find? (fun e => e.id == did) with
      | some serverEntry => jsTrim s.draftContent != jsTrim serverEntry.content
      | none => false
  | none => jsTrim s.draftContent != ""

/-- `hasUnsavedChanges`: defensively false while loading or before the first
sync, then true when the edited set is nonempty or the draft diverges. -/
def hasUnsavedChanges (s : DayViewState) : Bool :=
  if s.loading ∨ ¬s.hasInitialized then false
  else if 0 < s.editedEntryIds.card then true
  else draftDirty s

/-- Draft-record consistency: the pending draft id marker, when set, never
names a different entry than a committed `draftEntryId`.  This is the
relation `handleDraftSave` establishes by setting both to `saved.id` in the
same tick. -/
def draftConsistent (s : DayViewState) : Prop :=
  s.pendingDraftEntryId = none ∨ s.draftEntryId = none ∨
    s.draftEntryId = s.pendingDraftEntryId

/-- The asynchronous completions that interleave between renders in the
create-then-refresh scenario of the draft controller: the synchronous part of
a successful create (pending marker set, collection optimistically extended,
`setDraftEntryId` still queued), the React commit of the queued
`setDraftEntryId`, the grace-delay clearing of the pending marker, and a
collection refresh observed together with its sync effect. -/
inductive DraftStep : DayViewState → DayViewState → Prop where
  | createPending (saved : JournalEntry) (s : DayViewState) :
      s.draftEntryId = none →
      DraftStep s { s with
        entries := createEntryApply saved s.entries,
        pendingDraftEntryId := some saved.id }
  | commitDraftId (i c : String) (s : DayViewState) :
      s.pendingDraftEntryId = some i →
      DraftStep s { s with draftEntryId := some i, draftContent := c }
  | clearPending (i : String) (s : DayViewState) :
      DraftStep s (clearPendingDraftId s i)
  | refreshObserved (serverEntries : List JournalEntry) (s : DayViewState) :
      DraftStep s (syncWithEntries { s with entries := serverEntries })

end JournalDayView

namespace TimestampEdit

/-- A local wall-clock datetime, as manipulated by `new Date(...)` /
`setHours` in `EntryBlock`: the calendar day plus hours and minutes. -/
structure LocalDateTime where
  day : Nat
  hours : Nat
  minutes : Nat
deriving DecidableEq, Repr

/-- `newDate.setHours(hours, minutes, 0, 0)` applied to a copy of the
original date: keep the calendar day, replace the clock time. -/
def setHoursMinutes (d : LocalDateTime) (h m : Nat) : LocalDateTime :=
  { d with hours := h, minutes := m }

/-- The `writtenAt` computed inside `handleSaveNow` (and the debounce
closure) of `EntryBlock`: defined only while the timestamp is in edit mode
with a parseable `timeValue` (modelled as the parsed `(hours, minutes)`
pair, `none` for an empty or non-numeric field) and a snapshotted
`originalDateRef`; it recombines the edited clock time with the original
date. -/
def computeWrittenAt (isEditingTimestamp : Bool)
    (timeValue : Option (Nat × Nat)) (originalDate : Option LocalDateTime) :
    Option LocalDateTime :=
  if isEditingTimestamp then
    match timeValue, originalDate with
    | some (h, m), some d => some (setHoursMinutes d h m)
    | _, _ => none
  else none

/-- The argument triple `handleSaveNow` passes to the block's `onSave` prop:
`(content, isManualSave = true, writtenAt)`. -/
def handleSaveNowArgs (content : String) (isEditingTimestamp : Bool)
    (timeValue : Option (Nat × Nat)) (originalDate : Option LocalDateTime) :
    String × Bool × Option LocalDateTime :=
  (content, true, computeWrittenAt isEditingTimestamp timeValue originalDate)

/-- The `onSave` prop `JournalDayView` wires onto each committed entry's
block: `(val, isManual) => handleEntrySave(entry.id, val, isManual)`.  The
wrapper binds only two parameters, so the third argument the block passes is
discarded and `handleEntrySave` receives no `writtenAt`. -/
def committedOnSaveForward (args : String × Bool × Option LocalDateTime) :
    String × Bool × Option LocalDateTime :=
  (args.1, args.2.1, none)

/-- The PATCH body `journalApi.updateEntry` sends (one element of the array
posted to `/latest/entries`): `written_at` is included only when the
`writtenAt` argument was provided. -/
structure PatchPayload where
  id : String
  raw_markdown : Option String
  written_at : Option LocalDateTime
deriving DecidableEq, Repr

/-- `journalApi.updateEntry(id, content, writtenAt?)`: the payload carries
`raw_markdown := content` and `written_at` exactly when `writtenAt` was
passed. -/
def journalApiUpdatePayload (id content : String)
    (writtenAt : Option LocalDateTime) : PatchPayload :=
  { id := id, raw_markdown := some content, written_at := writtenAt }

/-- The `useTodayEntry` hook's `updateEntry(id, content)`: it has no
`writtenAt` parameter and calls `journalApi.updateEntry(id, content)`, so
the payload never carries `written_at`. -/
def hookUpdatePayload (id content : String) : PatchPayload :=
  journalApiUpdatePayload id content none

/-- End-to-end payload for a committed entry's timestamp-confirm save:
`handleSaveNow` → the day view's two-parameter `onSave` wrapper →
`handleEntrySave` → the hook's `updateEntry`. -/
def committedSavePayload (id content : String) (isEditingTimestamp : Bool)
    (timeValue : Option (Nat × Nat)) (originalDate : Option LocalDateTime) :
    PatchPayload :=
  let forwarded := committedOnSaveForward
    (handleSaveNowArgs content isEditingTimestamp timeValue originalDate)
  hookUpdatePayload id (jsTrim forwarded.1)

end TimestampEdit

namespace ApiClient

/-- The module-level refresh coordination state of `api/client.ts`
(`isRefreshing`, `refreshPromise`), extended with bookkeeping that gives the
in-flight promise an identity (`nextPromiseId`) and counts how many times
`authApi.refreshToken()` has been invoked (`refreshCalls`). -/
structure RefreshState where
  isRefreshing : Bool
  refreshPromise : Option Nat
  refreshCalls : Nat
  nextPromiseId : Nat
deriving DecidableEq, Repr

/-- `attemptTokenRefresh()`: when a refresh is already in flight
(`isRefreshing && refreshPromise`), await that same promise; otherwise set
the flag, start one `authApi.refreshToken()` call and store its promise.
Returns the promise id the caller awaits. -/
def attemptTokenRefresh (s : RefreshState) : RefreshState × Nat :=
  if h : s.isRefreshing = true ∧ s.refreshPromise.isSome then
    (s, s.refreshPromise.get h.2)
  else
    ({ isRefreshing := true,
       refreshPromise := some s.nextPromiseId,
       refreshCalls := s.refreshCalls + 1,
       nextPromiseId := s.nextPromiseId + 1 },
      s.nextPromiseId)

/-- The `finally` of the in-flight refresh: clear the flag and the stored
promise once `authApi.refreshToken()` settles. -/
def resolveRefresh (s : RefreshState) : RefreshState :=
  { s with isRefreshing := false, refreshPromise := none }

/-- Process `n` logically-concurrent gateway callers that all hit the 401
branch before the in-flight refresh settles: each invokes
`attemptTokenRefresh` in turn (the JS event loop serialises them).  Returns
the final state and the promise id each caller awaits, in call order. -/
def processCallers (s : RefreshState) : Nat → RefreshState × List Nat
  | 0 => (s, [])
  | n + 1 =>
      let r1 := attemptTokenRefresh s
      let r2 := processCallers r1.1 n
      (r2.1, r1.2 :: r2.2)

/-- `needle` is a prefix of `hay`. -/
def leadsWith : List Char → List Char → Bool
  | _, [] => true
  | [], _ :: _ => false
  | h :: t, nh :: nt => h = nh && leadsWith t nt

/-- JS `hay.includes(needle)` on character lists. -/
def includesSeq (needle : List Char) : List Char → Bool
  | [] => leadsWith [] needle
  | h :: t => leadsWith (h :: t) needle || includesSeq needle t

/-- JS `hay.includes(needle)` on strings. -/
def jsIncludes (hay needle : String) : Bool :=
  includesSeq needle.data hay.data

/-- The refresh-exclusion test in `request`:
`endpoint.includes('/auth/me') || endpoint.includes('/auth/refresh')`. -/
def isAuthEndpoint (endpoint : String) : Bool :=
  jsIncludes endpoint "/auth/me" || jsIncludes endpoint "/auth/refresh"

/-- `response.ok`: HTTP status in the 2xx range. -/
def responseOk (status : Nat) : Bool :=
  200 ≤ status && status < 300

/-- The observable outcome of one `request` invocation: how many fetches of
the endpoint were issued, how many times `attemptTokenRefresh` was invoked,
whether the call resolved, and the final status. -/
structure RequestOutcome where
  fetches : Nat
  refreshAttempts : Nat
  ok : Bool
  status : Nat
deriving DecidableEq, Repr

/-- `request(endpoint, options, retryOn401 = false)` — the retried call:
one fetch, and even a 401 response triggers no refresh and no further retry
because `retryOn401` is false. -/
def requestNoRetry (status : Nat) : RequestOutcome :=
  { fetches := 1, refreshAttempts := 0, ok := responseOk status,
    status := status }

/-- `request(endpoint, options)` with the default `retryOn401 = true`:
`status1` is the first response's status; on a 401 for a non-auth endpoint
the client awaits `attemptTokenRefresh()` (`refreshOk` tells whether it
succeeded) and, only if it succeeded, re-issues the request once with
`retryOn401 = false`, which then sees `status2`; any other failure, a
failed refresh included, surfaces the original error. -/
def request (endpoint : String) (status1 status2 : Nat) (refreshOk : Bool) :
    RequestOutcome :=
  if responseOk status1 then
    { fetches := 1, refreshAttempts := 0, ok := true, status := status1 }
  else if status1 = 401 ∧ isAuthEndpoint endpoint = false then
    if refreshOk then
      let r := requestNoRetry status2
      { fetches := 1 + r.fetches, refreshAttempts := 1 + r.refreshAttempts,
        ok := r.ok, status := r.status }
    else
      { fetches := 1, refreshAttempts := 1, ok := false, status := status1 }
  else
    { fetches := 1, refreshAttempts := 0, ok := false, status := status1 }

end ApiClient

namespace Metrics

/-- Modelled from the spec: `getDateRange(savedDate, 7)` (imported by
`JournalDayView` from `utils/dateFormatting`, whose exported source does not
include it): the trailing window of `days` calendar days ending at
`endDate`, dates modelled as day numbers. -/
def getDateRange (endDate days : Nat) : Nat × Nat :=
  (endDate + 1 - days, endDate)

/-- Modelled from the spec: `journalApi.getCalendarRange(start, end)` (called
by `metricsHelpers.ts` but absent from the `journalApi` source): one calendar
record per date of the inclusive range, carrying whether that date's metric
set is complete; `complete` is the server's completeness predicate. -/
def getCalendarRange (complete : Nat → Bool) (startDate endDate : Nat) :
    List (Nat × Bool) :=
  (List.range (endDate + 1 - startDate)).map
    (fun i => (startDate + i, complete (startDate + i)))

/-- JS `Array.prototype.sort` with comparator `dateB - dateA` (a stable sort,
descending): insertion sort by `≥`. -/
def sortDatesDescending (l : List Nat) : List Nat :=
  List.insertionSort (· ≥ ·) l

/-- `getDatesWithIncompleteMetrics(startDate, endDate)` from
`utils/metricsHelpers.ts`: the dates of the range whose calendar record is
not metrics-complete, sorted most recent first. -/
def getDatesWithIncompleteMetrics (complete : Nat → Bool)
    (startDate endDate : Nat) : List Nat :=
  let calendarEntries := getCalendarRange complete startDate endDate
  let incompleteDates := (calendarEntries.filter (fun e => !e.2)).map
    (fun e => e.1)
  sortDatesDescending incompleteDates

/-- The pending completion queue `handleMetricsSaveComplete` computes after a
metrics save for `savedDate` succeeds with no queue active: the incomplete
dates of the trailing 7-day window, with the just-saved date filtered out. -/
def handleMetricsSaveComplete (complete : Nat → Bool) (savedDate : Nat) :
    List Nat :=
  let r := getDateRange savedDate 7
  let incompleteDates := getDatesWithIncompleteMetrics complete r.1 r.2
  incompleteDates.filter (fun d => d ≠ savedDate)

end Metrics

/-! Concrete states used by the claim witnesses. -/

/-- The entry the gateway returns for the witness draft create. -/
def c1Saved : JournalEntry := ⟨"e1", "hello", 1000⟩

/-- Witness initial state: a draft with content but no id, nothing pending. -/
def c1S0 : JournalDayView.DayViewState :=
  { entries := [], entryContents := [], editedEntryIds := ∅,
    draftEntryId := none, draftContent := "hello",
    pendingDraftEntryId := none, isSavingDraft := false,
    loading := false, hasInitialized := true }

/-- Witness state after the synchronous part of the successful create. -/
def c1S1 : JournalDayView.DayViewState :=
  { c1S0 with
    entries := UseTodayEntry.createEntryApply c1Saved c1S0.entries,
    pendingDraftEntryId := some c1Saved.id }

/-- Witness state after React commits the queued `setDraftEntryId`. -/
def c1S2 : JournalDayView.DayViewState :=
  { c1S1 with draftEntryId := some c1Saved.id, draftContent := "hello" }

/-- Witness state after a collection refresh that contains the new id. -/
def c1S3 : JournalDayView.DayViewState :=
  JournalDayView.syncWithEntries { c1S2 with entries := [c1Saved] }

/-- Witness state for the empty-content save: one committed entry "abc",
nothing edited yet, clean empty draft. -/
def c5S : JournalDayView.DayViewState :=
  { entries := [⟨"a", "abc", 5⟩], entryContents := [("a", "abc")],
    editedEntryIds := ∅, draftEntryId := none, draftContent := "",
    pendingDraftEntryId := none, isSavingDraft := false,
    loading := false, hasInitialized := true }

/-- Witness state for the trim-equal edit scenario: one committed entry
"abc" currently marked edited, clean empty draft. -/
def c8S : JournalDayView.DayViewState :=
  { entries := [⟨"a", "abc", 5⟩], entryContents := [("a", "abc ")],
    editedEntryIds := {"a"}, draftEntryId := none, draftContent := "",
    pendingDraftEntryId := none, isSavingDraft := false,
    loading := false, hasInitialized := true }

/-- Witness state for the failed draft create: a composed draft with no id
and no save in flight. -/
def c9S : JournalDayView.DayViewState :=
  { entries := [], entryContents := [], editedEntryIds := ∅,
    draftEntryId := none, draftContent := "hello",
    pendingDraftEntryId := none, isSavingDraft := false,
    loading := false, hasInitialized := true }

end DailyJournal

namespace DailyJournal

/-! Theorems settling the claims. -/

section UseTodayEntryTheorems

open UseTodayEntry

theorem entryIds_createEntryApply (saved : JournalEntry)
    (l : List JournalEntry) (h : (entryIds l).Nodup) :
    (entryIds (createEntryApply saved l)).Nodup := by
  unfold createEntryApply
  by_cases hc : l.any (fun e => e.id == saved.id)
  · simpa [hc] using h
  · have hfalse : (l.any fun e => e.id == saved.id) = false := by
      simpa using hc
    have hnot : saved.id ∉ entryIds l := by
      intro hmem
      obtain ⟨e, he, hid⟩ := List.mem_map.mp hmem
      have := List.any_eq_false.mp hfalse e he
      simp [hid] at this
    rw [if_neg hc]
    show (entryIds (l ++ [saved])).Nodup
    rw [entryIds, List.map_append, List.nodup_append]
    exact ⟨h, List.nodup_singleton _, by
      intro x hx hx2
      simp only [List.map, List.mem_singleton] at hx2
      exact hnot (hx2 ▸ hx)⟩

theorem entryIds_updateEntryApply (id : String) (upd : JournalEntry)
    (l : List JournalEntry) (h : upd.id = id) :
    entryIds (updateEntryApply id upd l) = entryIds l := by
  induction l with
  | nil => rfl
  | cons e t ih =>
      simp only [updateEntryApply, entryIds, List.map_cons] at ih ⊢
      rw [ih]
      by_cases he : e.id = id
      · rw [if_pos (by simp [he]), h, he]
      · rw [if_neg (by simp [he])]

theorem entryIds_deleteEntryApply (id : String) (l : List JournalEntry)
    (h : (entryIds l).Nodup) : (entryIds (deleteEntryApply id l)).Nodup := by
  have hsub : List.Sublist (deleteEntryApply id l) l := List.filter_sublist l
  exact h.sublist (hsub.map _)

theorem applyOp_preserves_nodup (op : EntryOp) (l : List JournalEntry)
    (hop : opWellFormed op) (h : (entryIds l).Nodup) :
    (entryIds (applyOp op l)).Nodup := by
  cases op with
  | create saved => exact entryIds_createEntryApply saved l h
  | update id upd =>
      rw [applyOp, entryIds_updateEntryApply id upd l hop]
      exact h
  | delete id => exact entryIds_deleteEntryApply id l h

/-- C10: every optimistic mutation of the entry collection — create (append
only when the id is absent), update (in-place replacement by the entry the
gateway returned for that id), delete (remove all entries with the id) —
preserves pairwise-distinct entry ids, hence any sequence of them does. -/
theorem c10_entry_ops_preserve_distinct_ids (ops : List EntryOp)
    (l : List JournalEntry) (hops : ∀ op ∈ ops, opWellFormed op)
    (h : (entryIds l).Nodup) : (entryIds (applyOps ops l)).Nodup := by
  induction ops generalizing l with
  | nil => exact h
  | cons op t ih =>
      have hstep := applyOp_preserves_nodup op l
        (hops op (List.mem_cons_self op t)) h
      exact ih (applyOp op l) (fun o ho => hops o (List.mem_cons_of_mem op ho))
        hstep

theorem c10_entry_ops_preserve_distinct_ids_witness :
    (∀ op ∈ ([.create ⟨"a", "x", 1⟩, .update "a" ⟨"a", "y", 2⟩,
        .delete "b"] : List EntryOp), opWellFormed op) ∧
    (entryIds [(⟨"b", "z", 0⟩ : JournalEntry)]).Nodup ∧
    (entryIds (applyOps [.create ⟨"a", "x", 1⟩, .update "a" ⟨"a", "y", 2⟩,
        .delete "b"] [⟨"b", "z", 0⟩])).Nodup := by
  refine ⟨by decide, by decide, ?_⟩
  exact c10_entry_ops_preserve_distinct_ids _ _ (by decide) (by decide)

end UseTodayEntryTheorems

section EntryBlockTheorems

open EntryBlock

theorem schedRun_cons (s : SchedState) (ev : SchedEvent)
    (evs : List SchedEvent) :
    schedRun s (ev :: evs) = schedRun (schedStep s ev) evs := rfl

theorem schedRun_no_edit_no_auto (evs : List SchedEvent) (s : SchedState)
    (ht : s.timer = none) (h : ∀ e ∈ evs, e.isEdit = false) :
    (schedRun s evs).timer = none ∧
      autoSaves (schedRun s evs).saves = autoSaves s.saves := by
  induction evs generalizing s with
  | nil => exact ⟨ht, rfl⟩
  | cons ev t ih =>
      have hev := h ev (List.mem_cons_self ev t)
      have hrest : ∀ e ∈ t, e.isEdit = false :=
        fun e he => h e (List.mem_cons_of_mem ev he)
      cases ev with
      | change c => simp [SchedEvent.isEdit] at hev
      | saveNow c =>
          rw [schedRun_cons]
          have hnext := ih (schedStep s (.saveNow c)) rfl hrest
          refine ⟨hnext.1, ?_⟩
          rw [hnext.2]
          show autoSaves (s.saves ++ [(c, true)]) = autoSaves s.saves
          simp [autoSaves, List.filter_append]
      | fire =>
          rw [schedRun_cons]
          have hstep : schedStep s .fire = s := by
            simp [schedStep, ht]
          rw [hstep]
          exact ih s ht hrest

/-- C2: a manual save trigger (`handleSaveNow`) cancels any pending debounce
timer and immediately issues `onSave` with the content passed at trigger
time; after it, as long as no further edit happens, no debounce-fired
(non-manual) save is ever emitted for that unit. -/
theorem c2_manual_save_cancels_debounce (s : SchedState) (c : String)
    (evs : List SchedEvent) (h : ∀ e ∈ evs, e.isEdit = false) :
    (schedStep s (.saveNow c)).timer = none ∧
    (schedStep s (.saveNow c)).saves = s.saves ++ [(c, true)] ∧
    autoSaves (schedRun (schedStep s (.saveNow c)) evs).saves =
      autoSaves s.saves := by
  refine ⟨rfl, rfl, ?_⟩
  have := schedRun_no_edit_no_auto evs (schedStep s (.saveNow c)) rfl h
  rw [this.2]
  simp [schedStep, autoSaves, List.filter_append]

theorem c2_manual_save_cancels_debounce_witness :
    (∀ e ∈ ([.fire, .saveNow "y"] : List SchedEvent), e.isEdit = false) ∧
    ((schedStep ⟨some "pending", [("old", false)]⟩ (.saveNow "hello")).timer
        = none ∧
      (schedStep ⟨some "pending", [("old", false)]⟩ (.saveNow "hello")).saves
        = [("old", false)] ++ [("hello", true)] ∧
      autoSaves (schedRun
          (schedStep ⟨some "pending", [("old", false)]⟩ (.saveNow "hello"))
          [.fire, .saveNow "y"]).saves
        = autoSaves [("old", false)]) := by
  exact ⟨by decide,
    c2_manual_save_cancels_debounce ⟨some "pending", [("old", false)]⟩
      "hello" [.fire, .saveNow "y"] (by decide)⟩

end EntryBlockTheorems

section TimestampEditTheorems

open TimestampEdit

/-- C6 (code evaluated at the failing input): with the timestamp of a
committed entry in edit mode, time edited to 09:30 and the original datetime
day 700 at 14:05, `handleSaveNow` does compute the recombined `writtenAt`
(day 700 at 09:30) and passes it as the third `onSave` argument — but the
day view's two-parameter `onSave` wrapper discards it and the
`useTodayEntry` hook's `updateEntry(id, content)` accepts no `writtenAt`, so
the PATCH payload sent to the gateway carries `written_at = none` instead of
the edited timestamp. -/
theorem c6_writtenAt_dropped_on_timestamp_save :
    handleSaveNowArgs "hello" true (some (9, 30)) (some ⟨700, 14, 5⟩) =
      ("hello", true, some ⟨700, 9, 30⟩) ∧
    committedSavePayload "e1" "hello" true (some (9, 30))
        (some ⟨700, 14, 5⟩) =
      { id := "e1", raw_markdown := some "hello", written_at := none } := by
  exact ⟨rfl, rfl⟩

end TimestampEditTheorems

section ApiClientTheorems

open ApiClient

theorem processCallers_inflight (p : Nat) (s : RefreshState)
    (h1 : s.isRefreshing = true) (h2 : s.refreshPromise = some p) :
    ∀ n, processCallers s n = (s, List.replicate n p) := by
  intro n
  induction n with
  | zero => rfl
  | succ n ih =>
      have hjoin : attemptTokenRefresh s = (s, p) := by
        rw [attemptTokenRefresh, dif_pos (by simp [h1, h2])]
        simp [h2]
      simp [processCallers, hjoin, ih, List.replicate]

/-- C3: when several gateway calls hit the 401 branch while no refresh is in
flight, the first `attemptTokenRefresh` starts exactly one
`authApi.refreshToken()` call and every caller (the first included) awaits
that same in-flight promise; in particular three concurrent 401s produce
exactly one refresh call. -/
theorem c3_concurrent_401_single_refresh (s : RefreshState) (n : Nat)
    (hidle : s.isRefreshing = false) (hn : 1 ≤ n) :
    (processCallers s n).1.refreshCalls = s.refreshCalls + 1 ∧
    (processCallers s n).1.refreshPromise = some s.nextPromiseId ∧
    (processCallers s n).2 = List.replicate n s.nextPromiseId := by
  obtain ⟨m, rfl⟩ : ∃ m, n = m + 1 := ⟨n - 1, by omega⟩
  have hstart : attemptTokenRefresh s =
      ({ isRefreshing := true, refreshPromise := some s.nextPromiseId,
         refreshCalls := s.refreshCalls + 1,
         nextPromiseId := s.nextPromiseId + 1 }, s.nextPromiseId) := by
    rw [attemptTokenRefresh, dif_neg (by simp [hidle])]
  have hrest := processCallers_inflight s.nextPromiseId
    { isRefreshing := true, refreshPromise := some s.nextPromiseId,
      refreshCalls := s.refreshCalls + 1,
      nextPromiseId := s.nextPromiseId + 1 } rfl rfl m
  simp [processCallers, hstart, hrest, List.replicate]

theorem c3_concurrent_401_single_refresh_witness :
    (⟨false, none, 0, 0⟩ : RefreshState).isRefreshing = false ∧ 1 ≤ 3 ∧
    ((processCallers ⟨false, none, 0, 0⟩ 3).1.refreshCalls =
        (⟨false, none, 0, 0⟩ : RefreshState).refreshCalls + 1 ∧
      (processCallers ⟨false, none, 0, 0⟩ 3).1.refreshPromise = some 0 ∧
      (processCallers ⟨false, none, 0, 0⟩ 3).2 = List.replicate 3 0) := by
  exact ⟨rfl, by omega,
    c3_concurrent_401_single_refresh ⟨false, none, 0, 0⟩ 3 rfl (by omega)⟩

/-- C4: a non-auth gateway request whose first response is 401 triggers one
refresh attempt and, the refresh succeeding, is re-fetched exactly once; when
the retry gets 401 again the call fails with that 401 — no second refresh is
triggered and no third fetch is issued. -/
theorem c4_retry_exactly_once (endpoint : String) (status2 : Nat)
    (hauth : isAuthEndpoint endpoint = false) :
    (request endpoint 401 status2 true).fetches = 2 ∧
    (request endpoint 401 status2 true).refreshAttempts = 1 ∧
    (status2 = 401 →
      (request endpoint 401 status2 true).ok = false ∧
      (request endpoint 401 status2 true).status = 401) := by
  have h1 : request endpoint 401 status2 true =
      { fetches := 2, refreshAttempts := 1, ok := responseOk status2,
        status := status2 } := by
    rw [request]
    rw [if_neg (by decide)]
    rw [if_pos ⟨rfl, hauth⟩]
    rw [if_pos rfl]
    rfl
  rw [h1]
  refine ⟨rfl, rfl, fun h2 => ?_⟩
  subst h2
  exact ⟨by decide, rfl⟩

theorem c4_retry_exactly_once_witness :
    isAuthEndpoint "/latest/entries/abc" = false ∧
    ((request "/latest/entries/abc" 401 401 true).fetches = 2 ∧
      (request "/latest/entries/abc" 401 401 true).refreshAttempts = 1 ∧
      (401 = 401 →
        (request "/latest/entries/abc" 401 401 true).ok = false ∧
        (request "/latest/entries/abc" 401 401 true).status = 401)) := by
  exact ⟨by decide,
    c4_retry_exactly_once "/latest/entries/abc" 401 (by decide)⟩

end ApiClientTheorems

section DayViewTheorems

open JournalDayView UseTodayEntry

/-- C5: for a committed entry whose server content is nonempty after
trimming, an edit whose content trims to empty marks the entry edited, and
the following save trigger — debounced or manual, with or without a
`writtenAt` — issues exactly the calls `[deleteEntry id, refresh]` (one
delete, no update) and removes the entry from the collection. -/
theorem c5_empty_save_deletes_entry (s : DayViewState) (id c : String)
    (serverEntry : JournalEntry) (w : Option Nat) (updResp : JournalEntry)
    (hfind : s.entries.find? (fun e => e.id == id) = some serverEntry)
    (hserver : jsTrim serverEntry.content ≠ "")
    (hc : jsTrim c = "") :
    id ∈ (handleEntryChange s id c).editedEntryIds ∧
    handleEntrySave (handleEntryChange s id c) id c w updResp =
      ({ handleEntryChange s id c with
          entries := deleteEntryApply id (handleEntryChange s id c).entries },
        [GatewayCall.delete id, GatewayCall.refreshList]) ∧
    (∀ e ∈ (handleEntrySave (handleEntryChange s id c) id c w updResp).1.entries,
      e.id ≠ id) := by
  have hne : (jsTrim c != jsTrim serverEntry.content) = true := by
    simp [hc]
    intro heq
    exact hserver heq.symm
  have hedit : (handleEntryChange s id c).editedEntryIds =
      insert id s.editedEntryIds := by
    show nextEditedEntryIds s id c = insert id s.editedEntryIds
    simp only [nextEditedEntryIds, hfind, hne, if_true]
  have hmem : id ∈ (handleEntryChange s id c).editedEntryIds := by
    rw [hedit]
    exact Finset.mem_insert_self id _
  have hsave : handleEntrySave (handleEntryChange s id c) id c w updResp =
      ({ handleEntryChange s id c with
          entries := deleteEntryApply id (handleEntryChange s id c).entries },
        [GatewayCall.delete id, GatewayCall.refreshList]) := by
    rw [handleEntrySave]
    rw [if_neg (by simp [hmem]), if_pos hc]
  refine ⟨hmem, hsave, ?_⟩
  intro e he
  rw [hsave] at he
  simp only [deleteEntryApply, List.mem_filter] at he
  simpa using he.2

/-- C8: for a committed entry whose local content trim-equals the last-known
server content after an edit, the entry is out of the edited set, the
synced-indicator hypothesis holds (`hasUnsavedChanges` is false when no
other entry is edited and the draft is clean), and a subsequent debounce
fire issues no gateway call at all. -/
theorem c8_trim_equal_edits_clean (s : DayViewState) (id c : String)
    (serverEntry : JournalEntry) (updResp : JournalEntry)
    (hfind : s.entries.find? (fun e => e.id == id) = some serverEntry)
    (htrim : jsTrim c = jsTrim serverEntry.content)
    (hsub : s.editedEntryIds ⊆ {id})
    (hload : s.loading = false) (hinit : s.hasInitialized = true)
    (hdraft : draftDirty s = false) :
    id ∉ (handleEntryChange s id c).editedEntryIds ∧
    hasUnsavedChanges (handleEntryChange s id c) = false ∧
    handleEntrySave (handleEntryChange s id c) id c none updResp =
      (handleEntryChange s id c, []) := by
  have heq : (jsTrim c != jsTrim serverEntry.content) = false := by
    simp [htrim]
  have hedit : (handleEntryChange s id c).editedEntryIds =
      s.editedEntryIds.erase id := by
    show nextEditedEntryIds s id c = s.editedEntryIds.erase id
    simp only [nextEditedEntryIds, hfind, heq, Bool.false_eq_true, if_false]
  have hnot : id ∉ (handleEntryChange s id c).editedEntryIds := by
    rw [hedit]
    exact Finset.not_mem_erase id _
  have hempty : (handleEntryChange s id c).editedEntryIds = ∅ := by
    rw [hedit]
    apply Finset.eq_empty_of_forall_not_mem
    intro x hx
    have hx1 := Finset.mem_of_mem_erase hx
    have hx2 := Finset.ne_of_mem_erase hx
    have := hsub hx1
    simp only [Finset.mem_singleton] at this
    exact hx2 this
  refine ⟨hnot, ?_, ?_⟩
  · rw [hasUnsavedChanges]
    rw [if_neg (by
      show ¬((handleEntryChange s id c).loading = true ∨
        ¬(handleEntryChange s id c).hasInitialized = true)
      show ¬(s.loading = true ∨ ¬s.hasInitialized = true)
      simp [hload, hinit])]
    rw [if_neg (by
      show ¬0 < (handleEntryChange s id c).editedEntryIds.card
      simp [hempty])]
    show draftDirty (handleEntryChange s id c) = false
    have hdd : draftDirty (handleEntryChange s id c) = draftDirty s := rfl
    rw [hdd, hdraft]
  · rw [handleEntrySave]
    rw [if_pos (by simp [hnot])]

/-- C9: when the draft has no id, nothing pending and no save in flight, a
save whose create request fails leaves the draft record untouched — id still
`none`, content unchanged, pending marker `none`, collection unchanged —
having issued only the failed create; the next trigger with a successful
outcome issues a create again, not an update. -/
theorem c9_failed_create_preserves_draft (s : DayViewState) (c c2 : String)
    (w : Option Nat) (updResp updResp2 saved : JournalEntry)
    (hdraft : s.draftEntryId = none)
    (hsaving : s.isSavingDraft = false) (hc : jsTrim c ≠ "")
    (hc2 : jsTrim c2 ≠ "") :
    (handleDraftSave s c w (.error ()) updResp).1.draftEntryId = none ∧
    (handleDraftSave s c w (.error ()) updResp).1.draftContent =
      s.draftContent ∧
    (handleDraftSave s c w (.error ()) updResp).1.pendingDraftEntryId =
      none ∧
    (handleDraftSave s c w (.error ()) updResp).1.entries = s.entries ∧
    (handleDraftSave s c w (.error ()) updResp).2 =
      [GatewayCall.create (jsTrim c)] ∧
    (handleDraftSave (handleDraftSave s c w (.error ()) updResp).1 c2 none
        (.ok (some saved)) updResp2).2 =
      [GatewayCall.create (jsTrim c2)] := by
  have hfail : handleDraftSave s c w (.error ()) updResp =
      ({ s with pendingDraftEntryId := none, isSavingDraft := false },
        [GatewayCall.create (jsTrim c)]) := by
    rw [handleDraftSave]
    rw [if_neg (by simp [hc, hsaving])]
    simp only [hdraft]
  rw [hfail]
  refine ⟨hdraft, rfl, rfl, rfl, rfl, ?_⟩
  have hok : handleDraftSave
      ({ s with pendingDraftEntryId := none, isSavingDraft := false } :
        DayViewState) c2 none (.ok (some saved)) updResp2 =
      ({ { s with pendingDraftEntryId := none, isSavingDraft := false } with
          entries := createEntryApply saved s.entries,
          pendingDraftEntryId := some saved.id,
          draftEntryId := some saved.id,
          draftContent := if saved.content ≠ "" then saved.content
                          else jsTrim c2,
          isSavingDraft := false },
        [GatewayCall.create (jsTrim c2)]) := by
    rw [handleDraftSave]
    rw [if_neg (by simp [hc2])]
    simp only [hdraft]
  rw [hok]

theorem c5_empty_save_deletes_entry_witness :
    c5S.entries.find? (fun e => e.id == "a") = some ⟨"a", "abc", 5⟩ ∧
    jsTrim (⟨"a", "abc", 5⟩ : JournalEntry).content ≠ "" ∧
    jsTrim " " = "" ∧
    ("a" ∈ (handleEntryChange c5S "a" " ").editedEntryIds ∧
      handleEntrySave (handleEntryChange c5S "a" " ") "a" " " none
          ⟨"a", "abc", 5⟩ =
        ({ handleEntryChange c5S "a" " " with
            entries :=
              deleteEntryApply "a" (handleEntryChange c5S "a" " ").entries },
          [GatewayCall.delete "a", GatewayCall.refreshList]) ∧
      (∀ e ∈ (handleEntrySave (handleEntryChange c5S "a" " ") "a" " " none
          ⟨"a", "abc", 5⟩).1.entries, e.id ≠ "a")) := by
  exact ⟨by decide, by decide, by decide,
    c5_empty_save_deletes_entry c5S "a" " " ⟨"a", "abc", 5⟩ none
      ⟨"a", "abc", 5⟩ (by decide) (by decide) (by decide)⟩

theorem c8_trim_equal_edits_clean_witness :
    c8S.entries.find? (fun e => e.id == "a") = some ⟨"a", "abc", 5⟩ ∧
    jsTrim "abc" = jsTrim (⟨"a", "abc", 5⟩ : JournalEntry).content ∧
    c8S.editedEntryIds ⊆ {"a"} ∧
    c8S.loading = false ∧ c8S.hasInitialized = true ∧
    draftDirty c8S = false ∧
    ("a" ∉ (handleEntryChange c8S "a" "abc").editedEntryIds ∧
      hasUnsavedChanges (handleEntryChange c8S "a" "abc") = false ∧
      handleEntrySave (handleEntryChange c8S "a" "abc") "a" "abc" none
          ⟨"a", "abc", 5⟩ =
        (handleEntryChange c8S "a" "abc", [])) := by
  exact ⟨by decide, by decide, by decide, rfl, rfl, by decide,
    c8_trim_equal_edits_clean c8S "a" "abc" ⟨"a", "abc", 5⟩ ⟨"a", "abc", 5⟩
      (by decide) (by decide) (by decide) rfl rfl (by decide)⟩

theorem c9_failed_create_preserves_draft_witness :
    c9S.draftEntryId = none ∧ c9S.isSavingDraft = false ∧
    jsTrim "hello" ≠ "" ∧
    ((handleDraftSave c9S "hello" none (.error ()) c1Saved).1.draftEntryId
        = none ∧
      (handleDraftSave c9S "hello" none (.error ()) c1Saved).1.draftContent
        = c9S.draftContent ∧
      (handleDraftSave c9S "hello" none
          (.error ()) c1Saved).1.pendingDraftEntryId = none ∧
      (handleDraftSave c9S "hello" none (.error ()) c1Saved).1.entries
        = c9S.entries ∧
      (handleDraftSave c9S "hello" none (.error ()) c1Saved).2
        = [GatewayCall.create (jsTrim "hello")] ∧
      (handleDraftSave (handleDraftSave c9S "hello" none
          (.error ()) c1Saved).1 "hello" none
          (.ok (some c1Saved)) c1Saved).2
        = [GatewayCall.create (jsTrim "hello")]) := by
  exact ⟨rfl, rfl, by decide,
    c9_failed_create_preserves_draft c9S "hello" "hello" none c1Saved
      c1Saved c1Saved rfl rfl (by decide) (by decide)⟩

end DayViewTheorems

section DraftControllerTheorems

open JournalDayView UseTodayEntry

theorem syncWithEntries_pending (s : DayViewState) :
    (syncWithEntries s).pendingDraftEntryId = s.pendingDraftEntryId := by
  rw [syncWithEntries]
  rcases hd : s.draftEntryId with _ | did
  · simp only [hd]
  · simp only [hd]
    rcases hf : List.find? (fun e => e.id == did) s.entries with _ | m
    · simp only [hf]
      split <;> rfl
    · simp only [hf]

theorem syncWithEntries_draftId (s : DayViewState) :
    (syncWithEntries s).draftEntryId = s.draftEntryId ∨
      (syncWithEntries s).draftEntryId = none := by
  rw [syncWithEntries]
  rcases hd : s.draftEntryId with _ | did
  · left
    simp only [hd]
  · simp only [hd]
    rcases hf : List.find? (fun e => e.id == did) s.entries with _ | m
    · simp only [hf]
      split
      · right
        rfl
      · left
        rfl
    · left
      simp only [hf]

theorem draftStep_preserves_consistent {s t : DayViewState}
    (hst : DraftStep s t) (hs : draftConsistent s) : draftConsistent t := by
  cases hst with
  | createPending saved s h =>
      right
      left
      show s.draftEntryId = none
      exact h
  | commitDraftId i c s h =>
      right
      right
      show some i = s.pendingDraftEntryId
      rw [h]
  | clearPending i s =>
      rw [clearPendingDraftId]
      by_cases hcl : s.pendingDraftEntryId = some i
      · rw [if_pos hcl]
        left
        rfl
      · rw [if_neg hcl]
        exact hs
  | refreshObserved l s =>
      have hpend := syncWithEntries_pending { s with entries := l }
      rcases syncWithEntries_draftId { s with entries := l } with hid | hid
      · rcases hs with h1 | h2 | h3
        · left
          rw [hpend]
          exact h1
        · right
          left
          rw [hid]
          exact h2
        · right
          right
          rw [hid, hpend]
          exact h3
      · right
        left
        exact hid

theorem consistent_excludes (s : DayViewState) (h : draftConsistent s) :
    ∀ e ∈ otherEntries s,
      s.draftEntryId ≠ some e.id ∧ s.pendingDraftEntryId ≠ some e.id := by
  intro e he
  have he2 : e ∈ s.entries.filter (keepInOtherEntries s) := by
    rw [otherEntries] at he
    exact (List.mem_insertionSort _).mp he
  have hk : keepInOtherEntries s e = true := (List.mem_filter.mp he2).2
  have hne : some e.id ≠ effectiveDraftId s := by
    intro hcontra
    rw [keepInOtherEntries, if_pos hcontra] at hk
    exact Bool.false_ne_true hk
  rcases hdid : s.draftEntryId with _ | d
  · refine ⟨by simp [hdid], ?_⟩
    intro hp
    apply hne
    have heff : effectiveDraftId s = s.pendingDraftEntryId := by
      simp only [effectiveDraftId, hdid]
    rw [heff, hp]
  · have heff : effectiveDraftId s = some d := by
      simp only [effectiveDraftId, hdid]
    refine ⟨?_, ?_⟩
    · intro hd2
      apply hne
      rw [heff]
      exact congrArg some (Option.some_inj.mp hd2).symm
    · intro hp
      rcases h with h1 | h2 | h3
      · rw [h1] at hp
        exact Option.noConfusion hp
      · rw [hdid] at h2
        exact Option.noConfusion h2
      · apply hne
        rw [heff]
        have hde : some d = some e.id := by
          rw [← hdid, h3, hp]
        exact hde.symm

/-- C1: along any execution of the draft-create scenario — create succeeds
(pending marker set synchronously), `setDraftEntryId` commits, the grace
timeout clears the marker, collection refreshes are observed — starting from
a consistent draft record, the rendered non-draft list `otherEntries` never
contains an entry whose id equals the draft's committed id or the pending
draft id, so the new entry is never rendered twice. -/
theorem c1_draft_never_rendered_twice (s0 s : DayViewState)
    (h0 : draftConsistent s0) (hsteps : Relation.ReflTransGen DraftStep s0 s) :
    ∀ e ∈ otherEntries s,
      s.draftEntryId ≠ some e.id ∧ s.pendingDraftEntryId ≠ some e.id := by
  have hcons : draftConsistent s := by
    induction hsteps with
    | refl => exact h0
    | tail hab hbc ih => exact draftStep_preserves_consistent hbc ih
  exact consistent_excludes s hcons

theorem c1_draft_never_rendered_twice_witness :
    draftConsistent c1S0 ∧
    (∀ e ∈ otherEntries c1S3,
      c1S3.draftEntryId ≠ some e.id ∧
        c1S3.pendingDraftEntryId ≠ some e.id) := by
  have h1 : DraftStep c1S0 c1S1 :=
    DraftStep.createPending c1Saved c1S0 rfl
  have h2 : DraftStep c1S1 c1S2 :=
    DraftStep.commitDraftId c1Saved.id "hello" c1S1 rfl
  have h3 : DraftStep c1S2 c1S3 :=
    DraftStep.refreshObserved [c1Saved] c1S2
  exact ⟨Or.inl rfl,
    c1_draft_never_rendered_twice c1S0 c1S3 (Or.inl rfl)
      (Relation.ReflTransGen.tail
        (Relation.ReflTransGen.tail (Relation.ReflTransGen.single h1) h2)
        h3)⟩

end DraftControllerTheorems

section MetricsTheorems

open Metrics

theorem calFilterMap (complete : Nat → Bool) (a : Nat) (l : List Nat) :
    ((l.map (fun i => (a + i, complete (a + i)))).filter
        (fun e => !e.2)).map (fun e => e.1) =
      (l.map (fun i => a + i)).filter (fun d => !complete d) := by
  induction l with
  | nil => rfl
  | cons hd t ih =>
      by_cases hc : complete (a + hd) <;> simp [hc, ih]

theorem getDates_eq (complete : Nat → Bool) (a b : Nat) :
    getDatesWithIncompleteMetrics complete a b =
      sortDatesDescending
        (((List.range (b + 1 - a)).map (fun i => a + i)).filter
          (fun d => !complete d)) := by
  rw [getDatesWithIncompleteMetrics, getCalendarRange, calFilterMap]

theorem mem_getDates (complete : Nat → Bool) (a b x : Nat) :
    x ∈ getDatesWithIncompleteMetrics complete a b ↔
      ((∃ i, i < b + 1 - a ∧ x = a + i) ∧ complete x = false) := by
  rw [getDates_eq, sortDatesDescending, List.mem_insertionSort,
    List.mem_filter, List.mem_map]
  constructor
  · rintro ⟨⟨i, hi, rfl⟩, hc⟩
    exact ⟨⟨i, List.mem_range.mp hi, rfl⟩, by simpa using hc⟩
  · rintro ⟨⟨i, hi, rfl⟩, hc⟩
    exact ⟨⟨i, List.mem_range.mpr hi, rfl⟩, by simpa using hc⟩

theorem nodup_getDates (complete : Nat → Bool) (a b : Nat) :
    (getDatesWithIncompleteMetrics complete a b).Nodup := by
  rw [getDates_eq]
  have h1 : ((List.range (b + 1 - a)).map (fun i => a + i)).Nodup :=
    (List.nodup_range (b + 1 - a)).map (fun i j h => by omega)
  have h2 := h1.filter (fun d => !complete d)
  exact ((List.perm_insertionSort _ _).nodup_iff).mpr h2

theorem sorted_ge_getDates (complete : Nat → Bool) (a b : Nat) :
    List.Sorted (· ≥ ·) (getDatesWithIncompleteMetrics complete a b) := by
  rw [getDates_eq, sortDatesDescending]
  exact List.sorted_insertionSort _ _

theorem handleMetricsSaveComplete_eq (complete : Nat → Bool)
    (savedDate : Nat) :
    handleMetricsSaveComplete complete savedDate =
      (getDatesWithIncompleteMetrics complete (savedDate + 1 - 7)
        savedDate).filter (fun d => d ≠ savedDate) := rfl

/-- C7: after a metrics save for date D (with no queue active), the pending
completion queue consists of exactly the dates of the trailing 7-day window
ending at D whose metric sets are incomplete, D itself excluded, ordered
strictly descending (most recent first). -/
theorem c7_completion_queue_exact (complete : Nat → Bool) (savedDate : Nat)
    (hD : 6 ≤ savedDate) :
    (∀ x, x ∈ handleMetricsSaveComplete complete savedDate ↔
      (savedDate - 6 ≤ x ∧ x < savedDate ∧ complete x = false)) ∧
    List.Sorted (· > ·) (handleMetricsSaveComplete complete savedDate) := by
  constructor
  · intro x
    rw [handleMetricsSaveComplete_eq, List.mem_filter]
    rw [mem_getDates]
    simp only [decide_eq_true_eq]
    constructor
    · rintro ⟨⟨⟨i, hi, rfl⟩, hc⟩, hne⟩
      exact ⟨by omega, by omega, hc⟩
    · rintro ⟨h1, h2, h3⟩
      exact ⟨⟨⟨x - (savedDate + 1 - 7), by omega, by omega⟩, h3⟩, by omega⟩
  · rw [handleMetricsSaveComplete_eq]
    have hge := sorted_ge_getDates complete (savedDate + 1 - 7) savedDate
    have hnd := nodup_getDates complete (savedDate + 1 - 7) savedDate
    have hgeQ : List.Pairwise (· ≥ ·)
        ((getDatesWithIncompleteMetrics complete (savedDate + 1 - 7)
          savedDate).filter (fun d => d ≠ savedDate)) :=
      List.Pairwise.sublist (List.filter_sublist _) hge
    have hndQ := hnd.filter (fun d => decide (d ≠ savedDate))
    exact (List.Pairwise.and hgeQ hndQ).imp
      (fun h => lt_of_le_of_ne h.1 (Ne.symm h.2))

theorem c7_completion_queue_exact_witness :
    6 ≤ 10 ∧
    ((∀ x, x ∈ handleMetricsSaveComplete (fun d => !(5 ≤ d && d ≤ 9)) 10 ↔
        (10 - 6 ≤ x ∧ x < 10 ∧ (fun d => !(5 ≤ d && d ≤ 9)) x = false)) ∧
      List.Sorted (· > ·)
        (handleMetricsSaveComplete (fun d => !(5 ≤ d && d ≤ 9)) 10)) ∧
    handleMetricsSaveComplete (fun d => !(5 ≤ d && d ≤ 9)) 10 =
      [9, 8, 7, 6, 5] := by
  exact ⟨by omega,
    c7_completion_queue_exact (fun d => !(5 ≤ d && d ≤ 9)) 10 (by omega),
    by decide⟩

end MetricsTheorems

end DailyJournal
